import Mathlib

/-!
Verification of the Report Comparison & Opportunity Scoring Engine of the
construction-bid-intelligence frontend (src/src/pages/Comparison.tsx).

Numbers are modelled by `ℚ` (the engine's arithmetic on report data is exact
on the rational values that occur); a JavaScript division by zero, which
yields `NaN`, is modelled by `none` in an `Option` result.
-/

namespace Frontend

/-- The `risk_assessment` sub-object of a report (Comparison.tsx, interface
`ComparisonReport`): only its `red_flags` list is consumed by the engine. -/
structure RiskAssessment where
  red_flags : List String
deriving DecidableEq, Repr

/-- The `ComparisonReport` interface of Comparison.tsx. -/
structure Report where
  id : Int
  project_name : String
  client_name : String
  location : String
  budget_min : ℚ
  budget_max : ℚ
  duration_months : ℚ
  risk_score : ℚ
  risk_level : String
  participation_recommendation : String
  deadline_date : String
  risk_assessment : RiskAssessment
deriving DecidableEq, Repr

/-- The four metric keys accepted by `getBestValue` / `getWorstValue` /
`getValueColor` in Comparison.tsx. -/
inductive MetricKey where
  | budget_min
  | budget_max
  | risk_score
  | duration_months
deriving DecidableEq, Repr

/-- Projection of the report field selected by a metric key, as done by the
`reports.map(r => r.<key>)` expressions in Comparison.tsx. -/
def metricValue (key : MetricKey) (r : Report) : ℚ :=
  match key with
  | .budget_min => r.budget_min
  | .budget_max => r.budget_max
  | .risk_score => r.risk_score
  | .duration_months => r.duration_months

/-- `getBestValue` of Comparison.tsx (lines 58-69): `Math.min` over the mapped
values for `risk_score`, `duration_months` and `budget_min`, `Math.max` for
`budget_max`.  On the empty list JavaScript yields `Infinity`; this is
modelled by `none` (the claims only concern non-empty inputs). -/
def getBestValue (key : MetricKey) (reports : List Report) : Option ℚ :=
  match key with
  | .risk_score => (reports.map fun r => r.risk_score).min?
  | .duration_months => (reports.map fun r => r.duration_months).min?
  | .budget_max => (reports.map fun r => r.budget_max).max?
  | .budget_min => (reports.map fun r => r.budget_min).min?

/-- `getWorstValue` of Comparison.tsx (lines 71-82): the dual extremes. -/
def getWorstValue (key : MetricKey) (reports : List Report) : Option ℚ :=
  match key with
  | .risk_score => (reports.map fun r => r.risk_score).max?
  | .duration_months => (reports.map fun r => r.duration_months).max?
  | .budget_max => (reports.map fun r => r.budget_max).min?
  | .budget_min => (reports.map fun r => r.budget_min).max?

/-- `getValueColor` of Comparison.tsx (lines 84-91): the BEST-equality check
(`value === best`, returning the green class) comes first in the source,
then the WORST-equality check (red class), then the neutral empty class. -/
def getValueColor (value : ℚ) (key : MetricKey) (reports : List Report) : String :=
  if some value = getBestValue key reports then "bg-green-100 text-green-800 font-bold"
  else if some value = getWorstValue key reports then "bg-red-100 text-red-800"
  else ""

/-- Variant of `getValueColor` with the WORST-equality check performed before
the BEST-equality check, as one claim describes the source; used only to
compare against the actual order of checks in the code. -/
def getValueColorWorstFirst (value : ℚ) (key : MetricKey) (reports : List Report) : String :=
  if some value = getWorstValue key reports then "bg-red-100 text-red-800"
  else if some value = getBestValue key reports then "bg-green-100 text-green-800 font-bold"
  else ""

/-- The per-report opportunity score computed inside `findBestOpportunity`
(Comparison.tsx lines 103-110): `risk_score * 10`, plus 5 per red flag, plus
50 when the recommendation is the string NO, minus 20 when it is YES. -/
def scoreReport (report : Report) : ℚ :=
  report.risk_score * 10
    + (report.risk_assessment.red_flags.length : ℚ) * 5
    + (if report.participation_recommendation = "NO" then 50 else 0)
    + (if report.participation_recommendation = "YES" then -20 else 0)

/-- Recommendation penalty in the words of the specification: +50 for NO,
-20 for YES, 0 for anything else.  Kept separate from `scoreReport` so that
the code's pair of conditional additions can be compared with it. -/
def penalty (recommendation : String) : ℚ :=
  if recommendation = "NO" then 50
  else if recommendation = "YES" then -20
  else 0

/-- Ascending comparison by opportunity score, the order induced by the
comparator `(a, b) => a.score - b.score` passed to `scores.sort` in
Comparison.tsx line 112. -/
def scoreLE (a b : Report) : Prop :=
  scoreReport a ≤ scoreReport b

instance : DecidableRel scoreLE :=
  fun a b => inferInstanceAs (Decidable (scoreReport a ≤ scoreReport b))

instance : IsTotal Report scoreLE :=
  ⟨fun a b => le_total (scoreReport a) (scoreReport b)⟩

instance : IsTrans Report scoreLE :=
  ⟨fun _ _ _ hab hbc => le_trans hab hbc⟩

/-- The score-sorted report sequence produced by `scores.sort((a, b) =>
a.score - b.score)` followed by projecting `.report` (Comparison.tsx lines
103-113).  ECMAScript's `Array.prototype.sort` is a stable sort, so the
result is the unique stable ascending reordering, realised here by
insertion sort. -/
def rank (reports : List Report) : List Report :=
  List.insertionSort scoreLE reports

/-- `findBestOpportunity` of Comparison.tsx (lines 99-114): `null` for the
empty report list, otherwise the first element of the score-sorted array. -/
def findBestOpportunity (reports : List Report) : Option Report :=
  if reports.length = 0 then none
  else (rank reports).head?

/-- JavaScript's `Math.round`: round half toward positive infinity. -/
def jsRound (q : ℚ) : Int :=
  ⌊q + 1 / 2⌋

/-- The summary-statistics block rendered by Comparison.tsx (lines 324-352). -/
structure SummaryStatistics where
  avgRisk : Option ℚ
  avgBudget : Option ℚ
  avgDuration : Option Int
  totalRedFlags : Nat
deriving DecidableEq, Repr

/-- The summary statistics computed inline in Comparison.tsx lines 324-352:
each average is a `reduce` fold divided by `reports.length`, the duration
average additionally passed through `Math.round`, and the red-flag total is
an un-averaged `reduce` sum.  When `reports.length = 0` the three divisions
are JavaScript divisions by zero and produce `NaN` (modelled `none`); no
exception is raised on that path. -/
def summarize (reports : List Report) : SummaryStatistics :=
  if reports.length = 0 then
    { avgRisk := none
      avgBudget := none
      avgDuration := none
      totalRedFlags := reports.foldl (fun s r => s + r.risk_assessment.red_flags.length) 0 }
  else
    { avgRisk :=
        some ((reports.foldl (fun s r => s + r.risk_score) 0) / (reports.length : ℚ))
      avgBudget :=
        some ((reports.foldl (fun s r => s + (r.budget_min + r.budget_max) / 2) 0)
          / (reports.length : ℚ))
      avgDuration :=
        some (jsRound ((reports.foldl (fun s r => s + r.duration_months) 0)
          / (reports.length : ℚ)))
      totalRedFlags := reports.foldl (fun s r => s + r.risk_assessment.red_flags.length) 0 }

/-- Outcome of `loadComparison` in Comparison.tsx (lines 32-47): with fewer
than 2 parsed ids the component navigates back to the dashboard (the
surface form of an insufficient-selection failure), otherwise it issues the
compare request for exactly the supplied ids. -/
inductive LoadAction where
  | redirectHome
  | compareRequest (ids : List Int)
deriving DecidableEq, Repr

/-- The input-validation step of `loadComparison` (Comparison.tsx lines
34-38): `if (ids.length < 2) navigate back, else POST the ids`.  No upper
bound on `ids.length` is checked anywhere in the function. -/
def loadComparison (ids : List Int) : LoadAction :=
  if ids.length < 2 then .redirectHome
  else .compareRequest ids

/-- One comparison render pass of the component in explicit state-passing
form, returning the derived values together with the `reports` array as it
stands afterwards.  Tracing Comparison.tsx: `findBestOpportunity` builds a
fresh `scores` array with `reports.map` and sorts that fresh array in place
(line 112) without ever writing to `reports` or to a report's fields;
`getValueColor` / `getBestValue` / `getWorstValue` and the summary block
only `map`/`reduce` over `reports`. -/
def renderPass (reports : List Report) :
    (Option Report × List (List String) × SummaryStatistics) × List Report :=
  let scores := reports.map fun r => (scoreReport r, r)
  let sortedScores := List.insertionSort (fun a b => a.1 ≤ b.1) scores
  let best : Option Report :=
    if reports.length = 0 then none else (sortedScores.map Prod.snd).head?
  let colors := reports.map fun r =>
    [getValueColor r.budget_max .budget_max reports,
     getValueColor r.risk_score .risk_score reports,
     getValueColor r.duration_months .duration_months reports]
  let summary := summarize reports
  ((best, colors, summary), reports)

/-- Helper for building concrete report values in examples. -/
def mkReport (id : Int) (bmin bmax dur risk : ℚ) (rec : String)
    (flags : List String) : Report :=
  { id := id
    project_name := ""
    client_name := ""
    location := ""
    budget_min := bmin
    budget_max := bmax
    duration_months := dur
    risk_score := risk
    risk_level := ""
    participation_recommendation := rec
    deadline_date := ""
    risk_assessment := ⟨flags⟩ }

/-- Report A of the specification's Example 1: risk 2, no flags, YES. -/
def exampleA : Report := mkReport 1 0 0 6 2 "YES" []

/-- Report B of the specification's Example 1: risk 8, 3 flags, NO. -/
def exampleB : Report := mkReport 2 0 0 6 8 "NO" ["a", "b", "c"]

/-- First of two tied-score reports (score 10). -/
def exC : Report := mkReport 3 0 0 6 1 "MAYBE" []

/-- Second tied-score report: same scoring data as `exC`, different id, so
the two opportunity scores coincide. -/
def exD : Report := mkReport 4 0 0 6 1 "MAYBE" []

/-- A clearly worse report (score 140) placed ahead of the tied pair. -/
def exE : Report := mkReport 5 0 0 6 9 "NO" []

/-- Higher-risk report that nevertheless wins the composite ranking. -/
def exYes : Report := mkReport 6 0 0 6 5 "YES" []

/-- Lowest-risk report that loses the composite ranking. -/
def exNo : Report :=
  mkReport 7 0 0 6 4 "NO" ["1", "2", "3", "4", "5", "6", "7", "8", "9", "10"]

/-- Three reports realising the specification's Example 2 budget_max values
100, 200 and 150. -/
def exBudgets : List Report :=
  [mkReport 8 0 100 6 5 "MAYBE" [],
   mkReport 9 0 200 6 5 "MAYBE" [],
   mkReport 10 0 150 6 5 "MAYBE" []]

/-! ## Helper lemmas -/

/-- A non-empty rational list has a `min?` that belongs to the list and
bounds it from below. -/
theorem min?_spec (l : List ℚ) (h : l ≠ []) :
    ∃ b, l.min? = some b ∧ b ∈ l ∧ ∀ x ∈ l, b ≤ x := by
  cases hm : l.min? with
  | none => exact absurd (List.min?_eq_none_iff.mp hm) h
  | some b =>
    refine ⟨b, rfl, List.min?_mem (fun a b => min_choice a b) hm, ?_⟩
    intro x hx
    exact (List.le_min?_iff (fun a b c => le_min_iff) hm).mp le_rfl x hx

/-- A non-empty rational list has a `max?` that belongs to the list and
bounds it from above. -/
theorem max?_spec (l : List ℚ) (h : l ≠ []) :
    ∃ w, l.max? = some w ∧ w ∈ l ∧ ∀ x ∈ l, x ≤ w := by
  cases hm : l.max? with
  | none => exact absurd (List.max?_eq_none_iff.mp hm) h
  | some w =>
    refine ⟨w, rfl, List.max?_mem (fun a b => max_choice a b) hm, ?_⟩
    intro x hx
    exact (List.max?_le_iff (fun a b c => max_le_iff) hm).mp le_rfl x hx

/-- `min?` over a mapped non-empty report list is attained by a report and
bounds all reports from below. -/
theorem map_min?_spec (f : Report → ℚ) (l : List Report) (h : l ≠ []) :
    ∃ b, (l.map f).min? = some b ∧ (∃ r ∈ l, f r = b) ∧ ∀ r ∈ l, b ≤ f r := by
  obtain ⟨b, hb, hmem, hle⟩ := min?_spec (l.map f) (by simpa using h)
  obtain ⟨r, hr, hfr⟩ := List.mem_map.mp hmem
  exact ⟨b, hb, ⟨r, hr, hfr⟩, fun r hr => hle _ (List.mem_map_of_mem f hr)⟩

/-- `max?` over a mapped non-empty report list is attained by a report and
bounds all reports from above. -/
theorem map_max?_spec (f : Report → ℚ) (l : List Report) (h : l ≠ []) :
    ∃ w, (l.map f).max? = some w ∧ (∃ r ∈ l, f r = w) ∧ ∀ r ∈ l, f r ≤ w := by
  obtain ⟨w, hw, hmem, hle⟩ := max?_spec (l.map f) (by simpa using h)
  obtain ⟨r, hr, hfr⟩ := List.mem_map.mp hmem
  exact ⟨w, hw, ⟨r, hr, hfr⟩, fun r hr => hle _ (List.mem_map_of_mem f hr)⟩

/-- A left fold that only accumulates `f`-values is the accumulator plus the
sum of the mapped list; this is the shape of every `reduce` in the summary
block of Comparison.tsx. -/
theorem foldl_add_map_sum {M : Type} [AddCommMonoid M] (f : Report → M) (a : M)
    (l : List Report) :
    l.foldl (fun s r => s + f r) a = a + (l.map f).sum := by
  induction l generalizing a with
  | nil => simp
  | cons x xs ih => simp [ih, add_assoc]

/-- `rank` distributes over `cons` as an ordered insertion. -/
theorem rank_cons (x : Report) (xs : List Report) :
    rank (x :: xs) = List.orderedInsert scoreLE x (rank xs) := rfl

/-- `rank` permutes its input. -/
theorem rank_perm (reports : List Report) : List.Perm (rank reports) reports :=
  List.perm_insertionSort scoreLE reports

/-- Inserting a report into a list keeps exactly the reports of a given
score, with the inserted report in front when it has that score: every
report skipped by the insertion has a strictly smaller score. -/
theorem filter_orderedInsert_score (x : Report) (l : List Report) (m : ℚ) :
    (List.orderedInsert scoreLE x l).filter (fun r => decide (scoreReport r = m))
      = if scoreReport x = m
        then x :: l.filter (fun r => decide (scoreReport r = m))
        else l.filter (fun r => decide (scoreReport r = m)) := by
  induction l with
  | nil =>
    by_cases hm : scoreReport x = m <;>
      simp [List.orderedInsert, List.filter_cons, hm]
  | cons y ys ih =>
    by_cases hxy : scoreLE x y
    · rw [List.orderedInsert, if_pos hxy]
      by_cases hm : scoreReport x = m <;> simp [List.filter_cons, hm]
    · rw [List.orderedInsert, if_neg hxy]
      have hyx : scoreReport y < scoreReport x := not_le.mp hxy
      by_cases hm : scoreReport x = m
      · have hym : ¬ scoreReport y = m := by rw [← hm]; exact ne_of_lt hyx
        simp [List.filter_cons, hym, hm, ih]
      · simp [List.filter_cons, hm, ih]

/-- Stability of the score sort, filter form: the reports of any fixed score
appear in `rank` exactly as they appear in the input. -/
theorem filter_rank_score (reports : List Report) (m : ℚ) :
    (rank reports).filter (fun r => decide (scoreReport r = m))
      = reports.filter (fun r => decide (scoreReport r = m)) := by
  induction reports with
  | nil => rfl
  | cons x xs ih =>
    rw [rank_cons, filter_orderedInsert_score, ih]
    by_cases hm : scoreReport x = m <;> simp [List.filter_cons, hm]

/-- `find?` returns the head of the filtered list. -/
theorem find?_eq_head?_filter (p : Report → Bool) (l : List Report) :
    l.find? p = (l.filter p).head? := by
  induction l with
  | nil => rfl
  | cons x xs ih =>
    cases h : p x with
    | false =>
      rw [List.find?_cons_of_neg _ (by simp [h]), List.filter_cons,
        if_neg (by simp [h]), ih]
    | true =>
      rw [List.find?_cons_of_pos _ h, List.filter_cons, if_pos h]
      rfl

/-- The direction in which each metric is compared, as the specification's
directionality table states it: for `budget_max` the best value is the
maximum and the worst the minimum, for the other three metrics the best is
the minimum and the worst the maximum. -/
def claimedDirection (key : MetricKey) (best worst v : ℚ) : Prop :=
  match key with
  | .budget_max => v ≤ best ∧ worst ≤ v
  | _ => best ≤ v ∧ v ≤ worst

/-- The literal recommendation strings NO and YES differ. -/
theorem no_ne_yes : ¬ ("NO" : String) = "YES" := by decide

/-- The literal recommendation strings YES and NO differ. -/
theorem yes_ne_no : ¬ ("YES" : String) = "NO" := by decide

/-! ## Claim theorems -/

/-- C1: for every report the opportunity score equals `risk_score * 10`
plus 5 per red flag plus the recommendation penalty (+50 for NO, -20 for
YES, 0 otherwise); in particular the spec's Example 1 pair scores 0 and
145, and the risk-2 YES report is the best opportunity of the pair. -/
theorem scoreReport_formula_and_example1 :
    (∀ r : Report, scoreReport r =
        r.risk_score * 10 + (r.risk_assessment.red_flags.length : ℚ) * 5
          + penalty r.participation_recommendation)
    ∧ scoreReport exampleA = 0
    ∧ scoreReport exampleB = 145
    ∧ findBestOpportunity [exampleA, exampleB] = some exampleA := by
  have hA : scoreReport exampleA = 0 := by
    norm_num [scoreReport, exampleA, mkReport, yes_ne_no]
  have hB : scoreReport exampleB = 145 := by
    norm_num [scoreReport, exampleB, mkReport, no_ne_yes]
  refine ⟨?_, hA, hB, ?_⟩
  · intro r
    by_cases h1 : r.participation_recommendation = "NO"
    · simp [scoreReport, penalty, h1]
    · by_cases h2 : r.participation_recommendation = "YES"
      · simp [scoreReport, penalty, h1, h2]
      · simp [scoreReport, penalty, h1, h2]
  · norm_num [findBestOpportunity, rank, List.insertionSort, List.orderedInsert,
      scoreLE, hA, hB]

/-- C2: on every non-empty report set, `getBestValue` and `getWorstValue`
return values attained by some report and extremal in the direction of the
specification's table (minimum as best for `risk_score`, `duration_months`
and `budget_min`, maximum as best for `budget_max`, and dually for worst). -/
theorem getBestValue_getWorstValue_directionality (key : MetricKey)
    (reports : List Report) (h : reports ≠ []) :
    ∃ b w, getBestValue key reports = some b ∧ getWorstValue key reports = some w
      ∧ (∃ r ∈ reports, metricValue key r = b)
      ∧ (∃ r ∈ reports, metricValue key r = w)
      ∧ ∀ r ∈ reports, claimedDirection key b w (metricValue key r) := by
  cases key with
  | risk_score =>
    obtain ⟨b, hb, hbm, hbl⟩ := map_min?_spec (fun r => r.risk_score) reports h
    obtain ⟨w, hw, hwm, hwl⟩ := map_max?_spec (fun r => r.risk_score) reports h
    exact ⟨b, w, hb, hw, hbm, hwm, fun r hr => ⟨hbl r hr, hwl r hr⟩⟩
  | duration_months =>
    obtain ⟨b, hb, hbm, hbl⟩ := map_min?_spec (fun r => r.duration_months) reports h
    obtain ⟨w, hw, hwm, hwl⟩ := map_max?_spec (fun r => r.duration_months) reports h
    exact ⟨b, w, hb, hw, hbm, hwm, fun r hr => ⟨hbl r hr, hwl r hr⟩⟩
  | budget_min =>
    obtain ⟨b, hb, hbm, hbl⟩ := map_min?_spec (fun r => r.budget_min) reports h
    obtain ⟨w, hw, hwm, hwl⟩ := map_max?_spec (fun r => r.budget_min) reports h
    exact ⟨b, w, hb, hw, hbm, hwm, fun r hr => ⟨hbl r hr, hwl r hr⟩⟩
  | budget_max =>
    obtain ⟨b, hb, hbm, hbl⟩ := map_max?_spec (fun r => r.budget_max) reports h
    obtain ⟨w, hw, hwm, hwl⟩ := map_min?_spec (fun r => r.budget_max) reports h
    exact ⟨b, w, hb, hw, hbm, hwm, fun r hr => ⟨hbl r hr, hwl r hr⟩⟩

/-- C2 witness: the spec's Example 2 budget_max values 100, 200, 150 give
best 200 and worst 100, and the directionality theorem applies to them. -/
theorem getBestValue_getWorstValue_directionality_witness :
    getBestValue .budget_max exBudgets = some 200
    ∧ getWorstValue .budget_max exBudgets = some 100
    ∧ ∃ b w, getBestValue .budget_max exBudgets = some b
        ∧ getWorstValue .budget_max exBudgets = some w
        ∧ (∃ r ∈ exBudgets, metricValue .budget_max r = b)
        ∧ (∃ r ∈ exBudgets, metricValue .budget_max r = w)
        ∧ ∀ r ∈ exBudgets, claimedDirection .budget_max b w (metricValue .budget_max r) :=
  ⟨by decide, by decide,
    getBestValue_getWorstValue_directionality .budget_max exBudgets (by decide)⟩

/-- C3 counterexample: the source checks the BEST equality before the WORST
equality, not the other way around as the claim states; with the
worst-first order the claim describes, a single-report set would classify
as WORST (red), while the code classifies it as BEST (green). -/
theorem getValueColor_checkOrder_counterexample :
    getValueColorWorstFirst (metricValue .risk_score exampleA) .risk_score [exampleA]
        = "bg-red-100 text-red-800"
    ∧ getValueColor (metricValue .risk_score exampleA) .risk_score [exampleA]
        = "bg-green-100 text-green-800 font-bold" := by
  decide

/-- C3 amended: `getValueColor` classifies a value as BEST when it equals
the best extreme, with the best-equality check performed before the
worst-equality check, so that a single-report set (where best equals
worst) classifies as BEST, not WORST; a value equal to the worst extreme
but not the best classifies WORST, and any other value NEUTRAL. -/
theorem getValueColor_classification (key : MetricKey) (reports : List Report)
    (v : ℚ) (h : reports ≠ []) :
    (getBestValue key reports = some v →
        getValueColor v key reports = "bg-green-100 text-green-800 font-bold")
    ∧ (getWorstValue key reports = some v → getBestValue key reports ≠ some v →
        getValueColor v key reports = "bg-red-100 text-red-800")
    ∧ (getBestValue key reports ≠ some v → getWorstValue key reports ≠ some v →
        getValueColor v key reports = "")
    ∧ (∀ r, reports = [r] →
        getValueColor (metricValue key r) key reports
          = "bg-green-100 text-green-800 font-bold") := by
  refine ⟨?_, ?_, ?_, ?_⟩
  · intro hb
    unfold getValueColor
    rw [if_pos hb.symm]
  · intro hw hnb
    unfold getValueColor
    rw [if_neg (fun hc => hnb hc.symm), if_pos hw.symm]
  · intro h1 h2
    unfold getValueColor
    rw [if_neg (fun hc => h1 hc.symm), if_neg (fun hc => h2 hc.symm)]
  · intro r hrep
    subst hrep
    have hb : getBestValue key [r] = some (metricValue key r) := by
      cases key <;> rfl
    unfold getValueColor
    rw [if_pos hb.symm]

/-- C3 witness: Example 2's classifications (200 BEST, 100 WORST, 150
NEUTRAL for budget_max) and the single-report BEST case. -/
theorem getValueColor_classification_witness :
    getValueColor 200 .budget_max exBudgets = "bg-green-100 text-green-800 font-bold"
    ∧ getValueColor 100 .budget_max exBudgets = "bg-red-100 text-red-800"
    ∧ getValueColor 150 .budget_max exBudgets = ""
    ∧ getValueColor (metricValue .risk_score exampleA) .risk_score [exampleA]
        = "bg-green-100 text-green-800 font-bold" :=
  ⟨(getValueColor_classification .budget_max exBudgets 200 (by decide)).1 (by decide),
   (getValueColor_classification .budget_max exBudgets 100 (by decide)).2.1
     (by decide) (by decide),
   (getValueColor_classification .budget_max exBudgets 150 (by decide)).2.2.1
     (by decide) (by decide),
   (getValueColor_classification .risk_score [exampleA]
       (metricValue .risk_score exampleA) (by decide)).2.2.2 exampleA rfl⟩

/-- C4: the score ranking is ascending by score and stable: a pair of
reports appearing in input order with equal scores appears in the same
order in the ranked output, and on a non-empty input the best opportunity
is the first report of the input attaining the minimal score. -/
theorem rank_sorted_stable_minFirst (reports : List Report) :
    List.Sorted scoreLE (rank reports)
    ∧ (∀ a b : Report, scoreReport a = scoreReport b →
        List.Sublist [a, b] reports → List.Sublist [a, b] (rank reports))
    ∧ (reports ≠ [] → ∃ m, (reports.map scoreReport).min? = some m ∧
        findBestOpportunity reports
          = reports.find? (fun r => decide (scoreReport r = m))) := by
  refine ⟨List.sorted_insertionSort scoreLE reports, ?_, ?_⟩
  · intro a b hab hsub
    exact List.pair_sublist_insertionSort (r := scoreLE) (le_of_eq hab) hsub
  · intro h
    obtain ⟨m, hm, hmem, hlb⟩ := map_min?_spec scoreReport reports h
    have hne : rank reports ≠ [] := by
      intro hc
      have hp := rank_perm reports
      rw [hc] at hp
      exact h hp.symm.eq_nil
    obtain ⟨hd, tl, hrk⟩ := List.exists_cons_of_ne_nil hne
    have hdmem : hd ∈ reports := by
      refine (rank_perm reports).mem_iff.mp ?_
      rw [hrk]
      exact List.mem_cons_self _ _
    have hge : m ≤ scoreReport hd := hlb hd hdmem
    have hsorted : List.Sorted scoreLE (rank reports) :=
      List.sorted_insertionSort scoreLE reports
    obtain ⟨rmin, hrmin_mem, hrmin_score⟩ := hmem
    have hrmin_rank : rmin ∈ rank reports := (rank_perm reports).mem_iff.mpr hrmin_mem
    have hle : scoreReport hd ≤ m := by
      rw [hrk] at hrmin_rank hsorted
      rcases List.mem_cons.mp hrmin_rank with he | ht
      · rw [← hrmin_score, ← he]
      · rw [← hrmin_score]
        exact List.rel_of_sorted_cons hsorted rmin ht
    have hdm : scoreReport hd = m := le_antisymm hle hge
    have hlen : ¬ reports.length = 0 := by
      simpa [List.length_eq_zero] using h
    refine ⟨m, hm, ?_⟩
    have hbo : findBestOpportunity reports = some hd := by
      unfold findBestOpportunity
      rw [if_neg hlen, hrk]
      rfl
    rw [hbo, find?_eq_head?_filter, ← filter_rank_score, hrk, List.filter_cons,
      if_pos (decide_eq_true hdm)]
    rfl

/-- C4 witness: with a high-score report ahead of two reports of equal
score 10, the tied pair keeps its input order in the ranking and the best
opportunity is the first minimal-score report in input order. -/
theorem rank_sorted_stable_minFirst_witness :
    List.Sublist [exC, exD] (rank [exE, exC, exD])
    ∧ ∃ m, ([exE, exC, exD].map scoreReport).min? = some m ∧
        findBestOpportunity [exE, exC, exD]
          = [exE, exC, exD].find? (fun r => decide (scoreReport r = m)) :=
  ⟨(rank_sorted_stable_minFirst [exE, exC, exD]).2.1 exC exD rfl
      (List.Sublist.cons exE (List.Sublist.refl [exC, exD])),
   (rank_sorted_stable_minFirst [exE, exC, exD]).2.2 (by decide)⟩

/-- C5: the best-opportunity computation yields no report on the empty set
and, on every non-empty set, yields precisely the first element of the
score-sorted ranking. -/
theorem findBestOpportunity_empty_nonempty :
    findBestOpportunity ([] : List Report) = none
    ∧ ∀ reports : List Report, reports ≠ [] →
        ∃ r, findBestOpportunity reports = some r ∧ (rank reports).head? = some r := by
  refine ⟨rfl, ?_⟩
  intro reports h
  have hne : rank reports ≠ [] := by
    intro hc
    have hp := rank_perm reports
    rw [hc] at hp
    exact h hp.symm.eq_nil
  obtain ⟨hd, tl, hrk⟩ := List.exists_cons_of_ne_nil hne
  have hlen : ¬ reports.length = 0 := by
    simpa [List.length_eq_zero] using h
  refine ⟨hd, ?_, by rw [hrk]; rfl⟩
  unfold findBestOpportunity
  rw [if_neg hlen, hrk]
  rfl

/-- C5 witness: on the two-report Example 1 set the computation yields the
head of the ranking. -/
theorem findBestOpportunity_empty_nonempty_witness :
    ∃ r, findBestOpportunity [exampleA, exampleB] = some r
      ∧ (rank [exampleA, exampleB]).head? = some r :=
  findBestOpportunity_empty_nonempty.2 [exampleA, exampleB] (by decide)

/-- C6: on every non-empty report set the summary block computes the
arithmetic mean of the risk scores, the mean of the per-report budget
midpoints, the rounded mean of the durations, and the un-averaged total of
the red-flag counts. -/
theorem summarize_spec (reports : List Report) (h : reports ≠ []) :
    summarize reports =
      { avgRisk := some (((reports.map fun r => r.risk_score).sum)
          / (reports.length : ℚ))
        avgBudget := some (((reports.map fun r => (r.budget_min + r.budget_max) / 2).sum)
          / (reports.length : ℚ))
        avgDuration := some (jsRound (((reports.map fun r => r.duration_months).sum)
          / (reports.length : ℚ)))
        totalRedFlags := (reports.map fun r => r.risk_assessment.red_flags.length).sum } := by
  have hlen : ¬ reports.length = 0 := by
    simpa [List.length_eq_zero] using h
  unfold summarize
  rw [if_neg hlen,
    foldl_add_map_sum (fun r => r.risk_score) 0 reports,
    foldl_add_map_sum (fun r => (r.budget_min + r.budget_max) / 2) 0 reports,
    foldl_add_map_sum (fun r => r.duration_months) 0 reports,
    foldl_add_map_sum (fun r => r.risk_assessment.red_flags.length) 0 reports]
  simp

/-- C6 witness: the summary of the Example 1 pair is the mean/sum record. -/
theorem summarize_spec_witness :
    summarize [exampleA, exampleB] =
      { avgRisk := some ((([exampleA, exampleB].map fun r => r.risk_score).sum)
          / (([exampleA, exampleB] : List Report).length : ℚ))
        avgBudget := some ((([exampleA, exampleB].map
            fun r => (r.budget_min + r.budget_max) / 2).sum)
          / (([exampleA, exampleB] : List Report).length : ℚ))
        avgDuration := some (jsRound ((([exampleA, exampleB].map
            fun r => r.duration_months).sum)
          / (([exampleA, exampleB] : List Report).length : ℚ)))
        totalRedFlags := ([exampleA, exampleB].map
          fun r => r.risk_assessment.red_flags.length).sum } :=
  summarize_spec [exampleA, exampleB] (by decide)

/-- C7 counterexample: invoked with zero reports, the summary computation
does not fail with any error; the three divisions by zero produce NaN
(modelled `none`) and the red-flag total is 0, and this record is what the
component renders. -/
theorem summarize_empty_counterexample :
    summarize ([] : List Report)
      = { avgRisk := none, avgBudget := none, avgDuration := none,
          totalRedFlags := 0 } := by
  decide

/-- C7 amended: with zero reports the summary computation completes without
raising anything: each average is the JavaScript NaN of a division by zero
(modelled `none`) and the total red-flag count is 0. -/
theorem summarize_empty_fields :
    (summarize ([] : List Report)).avgRisk = none
    ∧ (summarize ([] : List Report)).avgBudget = none
    ∧ (summarize ([] : List Report)).avgDuration = none
    ∧ (summarize ([] : List Report)).totalRedFlags = 0 := by
  decide

/-- C8: the comparison loader rejects fewer than 2 ids (redirecting home,
the surface form of the insufficient-selection failure) and proceeds to
the compare request for any 2 or more ids, with no upper bound. -/
theorem loadComparison_validation :
    (∀ ids : List Int, ids.length < 2 ↔ loadComparison ids = LoadAction.redirectHome)
    ∧ ∀ ids : List Int, 2 ≤ ids.length →
        loadComparison ids = LoadAction.compareRequest ids := by
  constructor
  · intro ids
    constructor
    · intro h
      unfold loadComparison
      rw [if_pos h]
    · intro h
      by_contra hlt
      unfold loadComparison at h
      rw [if_neg hlt] at h
      exact LoadAction.noConfusion h
  · intro ids h
    unfold loadComparison
    rw [if_neg (by omega)]

/-- C8 witness: one id redirects; two ids and six ids both proceed to the
compare request. -/
theorem loadComparison_validation_witness :
    loadComparison [1] = LoadAction.redirectHome
    ∧ loadComparison [1, 2] = LoadAction.compareRequest [1, 2]
    ∧ loadComparison [1, 2, 3, 4, 5, 6] = LoadAction.compareRequest [1, 2, 3, 4, 5, 6] :=
  ⟨(loadComparison_validation.1 [1]).mp (by decide),
   loadComparison_validation.2 [1, 2] (by decide),
   loadComparison_validation.2 [1, 2, 3, 4, 5, 6] (by decide)⟩

/-- C9: a full comparison render pass, with the reports array threaded as
explicit state through the scoring, sorting, per-metric classification and
summary computations, returns the input reports unchanged: the only
in-place sort acts on the freshly mapped scores array, and no field of any
report is ever written. -/
theorem renderPass_preserves_reports (reports : List Report) :
    (renderPass reports).2 = reports := rfl

/-- C10: there is a report set whose best opportunity does not have the
minimal risk score: the risk-5 YES report wins the composite ranking over
the risk-4 NO report with ten red flags, even though the banner describes
the chosen report as lowest-risk. -/
theorem bestOpportunity_not_lowest_risk :
    findBestOpportunity [exYes, exNo] = some exYes
    ∧ getBestValue .risk_score [exYes, exNo] = some exNo.risk_score
    ∧ exNo.risk_score < exYes.risk_score := by
  have hy : scoreReport exYes = 30 := by
    norm_num [scoreReport, exYes, mkReport, yes_ne_no]
  have hn : scoreReport exNo = 140 := by
    norm_num [scoreReport, exNo, mkReport, no_ne_yes]
  refine ⟨?_, by decide, by decide⟩
  norm_num [findBestOpportunity, rank, List.insertionSort, List.orderedInsert,
    scoreLE, hy, hn]

end Frontend
